import Mathlib

/-!
Shallow embedding of `src/teachbot.py` (the retrieval-augmented TutorBot:
Flask server, in-memory document store, chunking, embedding, cosine
similarity, top-k retrieval, prompt composition, chat completion).

Remote services (the embedding provider and the chat-completion provider)
are modelled as oracle functions returning `Except String _`; a Python
exception escaping a handler is modelled as `Except.error` in the result.
Vectors of floats are modelled as lists of real numbers (exact arithmetic).
-/

namespace TeachBot

/-- Embedding vector: `np.array` of floats, modelled as a list of reals. -/
abbrev Vec := List ℝ

/-- Dot product `np.dot(a, b)`. -/
def dot (a b : Vec) : ℝ := ((a.zip b).map fun p => p.1 * p.2).sum

/-- Squared L2 norm (sum of squares of the entries). -/
def normSq (a : Vec) : ℝ := (a.map fun x => x * x).sum

/-- L2 norm `np.linalg.norm(a)`. -/
noncomputable def l2norm (a : Vec) : ℝ := Real.sqrt (normSq a)

/-- Embedding of `cosine_sim(a, b)` from `src/teachbot.py`:
`None` arguments and zero-norm arguments yield the sentinel `-1.0`,
otherwise the normalized dot product is returned. -/
noncomputable def cosine_sim (a b : Option Vec) : ℝ :=
  match a, b with
  | none, _ => -1
  | some _, none => -1
  | some a, some b =>
    let an := l2norm a
    let bn := l2norm b
    if an = 0 ∨ bn = 0 then -1 else dot a b / (an * bn)

/-- Worker for `pyWords`: `cur` holds the (reversed) characters of the word
being read; maximal runs of non-whitespace characters become words. -/
def wordsAux (cur : List Char) : List Char → List String
  | [] => if cur.isEmpty then [] else [String.mk cur.reverse]
  | c :: cs =>
    if c.isWhitespace then
      if cur.isEmpty then wordsAux [] cs
      else String.mk cur.reverse :: wordsAux [] cs
    else wordsAux (c :: cur) cs

/-- Embedding of Python `text.split()`: split on runs of whitespace,
dropping empty fragments. -/
def pyWords (text : String) : List String := wordsAux [] text.data

/-- Embedding of Python `text.strip()`: drop leading and trailing
whitespace. -/
def pyStrip (text : String) : String :=
  String.mk (((text.data.dropWhile Char.isWhitespace).reverse.dropWhile Char.isWhitespace).reverse)

/-- The `while i < len(words)` loop of `chunk_text`, with explicit fuel
(one unit per iteration; `chunk_text` supplies `words.length` units, which
is enough whenever `overlap < max_words`, i.e. whenever the advance step
`max_words - overlap` is positive). Each iteration emits
`" ".join(words[i:i+max_words])` and advances `i` by `max_words - overlap`. -/
def chunkFromFuel (words : List String) (maxW overlap : Nat) : Nat → Nat → List String
  | 0, _ => []
  | fuel + 1, i =>
    if i < words.length then
      " ".intercalate ((words.drop i).take maxW) ::
        chunkFromFuel words maxW overlap fuel (i + (maxW - overlap))
    else []

/-- Embedding of `chunk_text(text, max_words=200, overlap=40)` from
`src/teachbot.py`. -/
def chunk_text (text : String) (maxW : Nat := 200) (overlap : Nat := 40) : List String :=
  chunkFromFuel (pyWords text) maxW overlap (pyWords text).length 0

/-- Loop index sequence of `chunk_text`'s `while` loop, over the integers
(Python ints): starts at 0 and advances by `max_words - overlap` each
iteration. Used to reason about (non-)termination of the source loop. -/
def loopIdx (maxW overlap : ℤ) : Nat → ℤ
  | 0 => 0
  | n + 1 => loopIdx maxW overlap n + (maxW - overlap)

/-- Suffix-structured reformulation of the chunking loop at the word level:
window on the current suffix, then recurse on the suffix with the first
`s' + 1` words dropped (`s' + 1 = max_words - overlap`). -/
def windowsOf (maxW s' : Nat) : List String → List (List String)
  | [] => []
  | w :: ws => ((w :: ws).take maxW) :: windowsOf maxW s' (ws.drop s')
termination_by l => l.length
decreasing_by simp; omega

/-- A stored document: `{"id": ..., "title": ..., "text": ..., "chunks": ..., "embs": ...}`. -/
structure Doc where
  id : Nat
  title : String
  text : String
  chunks : List String
  embs : List Vec

/-- The shared mutable globals of `src/teachbot.py`:
`stored_docs` (the in-memory document list) and `doc_counter`. -/
structure St where
  stored_docs : List Doc
  doc_counter : Nat

/-- The initial state of the process: no documents, counter 0. -/
def initSt : St := ⟨[], 0⟩

/-- A retrieval candidate `{"chunk": ..., "score": ..., "doc_id": ...}`. -/
structure Candidate where
  chunk : String
  score : ℝ
  doc_id : Nat

/-- Oracle for `embed_texts`: one remote batched call, which either returns
one vector per input text or raises (modelled as `Except.error`). -/
abbrev Embedder := List String → Except String (List Vec)

/-- Oracle for `openai.ChatCompletion.create`: takes the system message
content and the user message content, returns the completion content or
raises (modelled as `Except.error`). -/
abbrev ChatOracle := String → String → Except String String

/-- The candidate list built by the nested loops of `retrieve_top_k`:
for each stored document, one candidate per chunk/embedding pair, scored
by cosine similarity against the query embedding. -/
noncomputable def allCandidates (q_emb : Vec) (docs : List Doc) : List Candidate :=
  docs.flatMap fun doc =>
    (doc.chunks.zip doc.embs).map fun ce =>
      ⟨ce.1, cosine_sim (some q_emb) (some ce.2), doc.id⟩

/-- Comparison used by `candidates.sort(key=lambda x: x["score"], reverse=True)`:
`x` may precede `y` when `y`'s score is at most `x`'s. Python's sort is
stable, and `reverse=True` preserves stability; `List.mergeSort` with this
relation has the same behaviour. -/
noncomputable def candLe (x y : Candidate) : Bool := decide (y.score ≤ x.score)

/-- Embedding of `retrieve_top_k(query, k=4)` from `src/teachbot.py`:
empty store short-circuits to `[]` without consulting the embedder;
otherwise the query is embedded (`embed_texts([query])[0]`), every chunk of
every document is scored, and the candidates are stable-sorted by
descending score and truncated to `k`. -/
noncomputable def retrieve_top_k (E : Embedder) (query : String) (docs : List Doc)
    (k : Nat := 4) : Except String (List Candidate) :=
  if docs.isEmpty then .ok []
  else
    match E [query] with
    | .error e => .error e
    | .ok [] => .error "IndexError: list index out of range"
    | .ok (q_emb :: _) =>
      .ok (((allCandidates q_emb docs).mergeSort candLe).take k)

/-- The fixed system prompt of `src/teachbot.py`. -/
def SYSTEM_PROMPT : String :=
  "You are TutorBot — a clear, patient tutor. Use ONLY the SOURCE CONTENT provided below to answer the student's question whenever possible.\nRules:\n1) First give a short explanation in the student's chosen style. Keep it simple and stepwise.\n2) Then give 1 short example (or illustration).\n3) Then give 2 short quiz questions (one multiple-choice or short-answer).\n4) If you cannot find the answer in the SOURCE CONTENT, say \"I don't see that in the provided material.\" Then offer a labeled best-effort answer.\nAlways be humble about uncertainty. Keep language beginner-friendly.\n"

/-- The `source_text` composed by the `chat` handler: a header plus one
`[score ...] chunk` line per retrieved candidate, or the fixed sentence
`"No documents ingested."` when nothing was retrieved. `fmt` abstracts
Python's `:.3f` float formatting. -/
def sourceTextOf (fmt : ℝ → String) (retrieved : List Candidate) : String :=
  if retrieved.isEmpty then "No documents ingested."
  else
    "\n\n--- Retrieved Chunks (most relevant first) ---\n\n" ++
      String.join (retrieved.map fun r => "[score " ++ fmt r.score ++ "] " ++ r.chunk ++ "\n\n")

/-- The `user_instructions` f-string composed by the `chat` handler. -/
def userInstructions (style question source_text : String) : String :=
  "\nSTUDENT PREFERRED STYLE: " ++ style ++ "\nQUESTION: " ++ question ++
    "\n\nUse the SOURCE below to answer. Follow the TutorBot rules in system prompt.\nSOURCE:\n" ++
    source_text ++ "\n"

/-- Outcome of the `/ingest` handler: either the `{"ok": True, "doc_id",
"num_chunks"}` body, or a `{"ok": False, "error"}` body with its HTTP
status code. -/
inductive IngestResult where
  | success (doc_id : Nat) (num_chunks : Nat)
  | failure (status : Nat) (error : String)
deriving DecidableEq

/-- Outcome of the `/chat` handler: either the `{"ok": True, "answer",
"retrieved"}` body, or a `{"ok": False, "error"}` body with its HTTP
status code. -/
inductive ChatResult where
  | success (answer : String) (retrieved : List Candidate)
  | failure (status : Nat) (error : String)

/-- Embedding of the `/ingest` handler from `src/teachbot.py`. Inputs are
the optional JSON fields (`payload.get`); `now` models `int(time.time())`
for the default title. The returned pair is (handler outcome, state of the
globals after the call); an `Except.error` outcome is an exception escaping
the handler. -/
def ingest (E : Embedder) (st : St) (text? title? : Option String) (now : Nat) :
    Except String IngestResult × St :=
  let text := pyStrip (text?.getD "")
  let title := title?.getD ("doc_" ++ toString now)
  if text = "" then (.ok (.failure 400 "No text provided."), st)
  else
    let chunks := chunk_text text
    match E chunks with
    | .error e => (.error e, st)
    | .ok embs =>
      let doc : Doc := ⟨st.doc_counter, title, text, chunks, embs⟩
      (.ok (.success st.doc_counter chunks.length),
        ⟨st.stored_docs ++ [doc], st.doc_counter + 1⟩)

/-- Embedding of the `/chat` handler from `src/teachbot.py`: validate the
question, retrieve top-5 candidates, compose the prompt, call the chat
oracle; only the chat-completion call sits inside `try/except`. -/
noncomputable def chat (E : Embedder) (C : ChatOracle) (fmt : ℝ → String)
    (st : St) (question? style? : Option String) :
    Except String ChatResult × St :=
  let question := pyStrip (question?.getD "")
  let style := style?.getD "Concise"
  if question = "" then (.ok (.failure 400 "No question provided."), st)
  else
    match retrieve_top_k E question st.stored_docs 5 with
    | .error e => (.error e, st)
    | .ok retrieved =>
      let source_text := sourceTextOf fmt retrieved
      let user_instr := userInstructions style question source_text
      match C SYSTEM_PROMPT user_instr with
      | .error e => (.ok (.failure 500 ("OpenAI API error: " ++ e)), st)
      | .ok content => (.ok (.success (pyStrip content) retrieved), st)

/-- One inbound request: either `/ingest` or `/chat`, with its oracles. -/
inductive Req where
  | ingestReq (E : Embedder) (text? title? : Option String) (now : Nat)
  | chatReq (E : Embedder) (C : ChatOracle) (fmt : ℝ → String) (question? style? : Option String)

/-- Effect of one request on the shared globals. -/
noncomputable def step (st : St) : Req → St
  | .ingestReq E t ti n => (ingest E st t ti n).2
  | .chatReq E C f q s => (chat E C f st q s).2

/-- Effect of a sequence of requests on the shared globals. -/
noncomputable def run (st : St) : List Req → St
  | [] => st
  | r :: rs => run (step st r) rs

/-- Store invariant: the counter equals the number of stored documents and
the document at position `i` carries id `i`. -/
def storeInv (st : St) : Prop :=
  st.doc_counter = st.stored_docs.length ∧
  ∀ i (h : i < st.stored_docs.length), (st.stored_docs.get ⟨i, h⟩).id = i

lemma windowsOf_nil (maxW s' : Nat) : windowsOf maxW s' [] = [] := by
  rw [windowsOf]

lemma windowsOf_cons (maxW s' : Nat) (w : String) (ws : List String) :
    windowsOf maxW s' (w :: ws) =
      ((w :: ws).take maxW) :: windowsOf maxW s' (ws.drop s') := by
  rw [windowsOf]

/-- The word windows, truncated to the advance step `s' + 1` and
concatenated, rebuild the original word list. -/
lemma windowsOf_flatten (maxW s' : Nat) (h : s' + 1 ≤ maxW) :
    ∀ ws : List String,
      ((windowsOf maxW s' ws).map fun w => w.take (s' + 1)).flatten = ws := by
  suffices key : ∀ (n : Nat) (ws : List String), ws.length ≤ n →
      ((windowsOf maxW s' ws).map fun w => w.take (s' + 1)).flatten = ws by
    intro ws; exact key ws.length ws le_rfl
  intro n
  induction n with
  | zero =>
    intro ws hle
    match ws with
    | [] => simp [windowsOf_nil]
  | succ n IH =>
    intro ws hle
    match ws with
    | [] => simp [windowsOf_nil]
    | w :: ws =>
      rw [windowsOf_cons]
      rw [List.map_cons, List.flatten_cons, IH (ws.drop s') (by simp at hle ⊢; omega),
        List.take_take, Nat.min_eq_left h, List.take_succ_cons]
      simp [List.take_append_drop]

/-- Closed form of the word windows: the `m`-th window exists exactly when
`m * (s' + 1)` is strictly below the word count, and is then the
`maxW`-word slice starting there. -/
lemma windowsOf_getElem (maxW s' : Nat) :
    ∀ (ws : List String) (m : Nat),
      (windowsOf maxW s' ws)[m]? =
        if m * (s' + 1) < ws.length then
          some ((ws.drop (m * (s' + 1))).take maxW)
        else none := by
  suffices key : ∀ (n : Nat) (ws : List String), ws.length ≤ n → ∀ m : Nat,
      (windowsOf maxW s' ws)[m]? =
        if m * (s' + 1) < ws.length then
          some ((ws.drop (m * (s' + 1))).take maxW)
        else none by
    intro ws; exact key ws.length ws le_rfl
  intro n
  induction n with
  | zero =>
    intro ws hle m
    match ws with
    | [] => simp [windowsOf_nil]
  | succ n IH =>
    intro ws hle m
    match ws with
    | [] => simp [windowsOf_nil]
    | w :: ws =>
      rw [windowsOf_cons]
      match m with
      | 0 => simp
      | m + 1 =>
        rw [List.getElem?_cons_succ, IH (ws.drop s') (by simp at hle ⊢; omega) m]
        have harith : (m + 1) * (s' + 1) = m * (s' + 1) + s' + 1 := by ring
        by_cases hc : m * (s' + 1) < (ws.drop s').length
        · rw [if_pos hc, if_pos (by simp [List.length_drop] at hc ⊢; omega)]
          rw [harith, List.drop_succ_cons, List.drop_drop, Nat.add_comm s' (m * (s' + 1))]
        · rw [if_neg hc, if_neg (by simp [List.length_drop] at hc ⊢; omega)]

/-- The fuelled chunking loop computes the suffix-structured windows, as
soon as the fuel covers the remaining iterations (one per word suffices
when the advance step is positive). -/
lemma chunkFromFuel_eq_windows (words : List String) (maxW overlap : Nat)
    (h : overlap < maxW) :
    ∀ (fuel i : Nat), words.length - i ≤ fuel →
      chunkFromFuel words maxW overlap fuel i =
        (windowsOf maxW (maxW - overlap - 1) (words.drop i)).map
          (fun ws => " ".intercalate ws) := by
  intro fuel
  induction fuel with
  | zero =>
    intro i hle
    have hdrop : words.drop i = [] := by
      rw [List.drop_eq_nil_iff]; omega
    rw [chunkFromFuel, hdrop, windowsOf_nil]
    rfl
  | succ fuel IH =>
    intro i hle
    rw [chunkFromFuel]
    by_cases hi : i < words.length
    · rw [if_pos hi]
      obtain ⟨w, ws, hd⟩ : ∃ w ws, words.drop i = w :: ws := by
        have : words.drop i ≠ [] := by
          rw [ne_eq, List.drop_eq_nil_iff]; omega
        exact List.exists_cons_of_ne_nil this
      rw [hd, windowsOf_cons, List.map_cons, ← hd]
      congr 1
      rw [IH (i + (maxW - overlap)) (by omega)]
      have hdd : ws.drop (maxW - overlap - 1) = words.drop (i + (maxW - overlap)) := by
        have h1 : ws = (words.drop i).drop 1 := by rw [hd]; rfl
        rw [h1, List.drop_drop, List.drop_drop]
        congr 1
        omega
      rw [hdd]
    · rw [if_neg hi]
      have hdrop : words.drop i = [] := by
        rw [List.drop_eq_nil_iff]; omega
      rw [hdrop, windowsOf_nil]
      rfl

/-- Chunking as windows: `chunk_text` space-joins the suffix-structured
word windows of the text. -/
lemma chunk_text_eq_windows (text : String) (maxW overlap : Nat) (h : overlap < maxW) :
    chunk_text text maxW overlap =
      (windowsOf maxW (maxW - overlap - 1) (pyWords text)).map
        (fun ws => " ".intercalate ws) := by
  rw [chunk_text, chunkFromFuel_eq_windows _ _ _ h _ 0 (by omega), List.drop_zero]

lemma normSq_nonneg (a : Vec) : 0 ≤ normSq a := by
  refine List.sum_nonneg ?_
  intro x hx
  obtain ⟨y, _, rfl⟩ := List.mem_map.mp hx
  exact mul_self_nonneg y

lemma dot_self_eq_normSq (a : Vec) : dot a a = normSq a := by
  induction a with
  | nil => rfl
  | cons x t ih => simp [dot, normSq, List.zip_cons_cons] at ih ⊢; rw [ih]

lemma normSq_pos_of_ne_zero (a : Vec) (hx : ∃ x ∈ a, x ≠ 0) : 0 < normSq a := by
  obtain ⟨x, hmem, hne⟩ := hx
  have hle : x * x ≤ normSq a := by
    refine List.single_le_sum ?_ _ (List.mem_map.mpr ⟨x, hmem, rfl⟩)
    intro y hy
    obtain ⟨z, _, rfl⟩ := List.mem_map.mp hy
    exact mul_self_nonneg z
  exact lt_of_lt_of_le (mul_self_pos.mpr hne) hle

lemma l2norm_eq_zero_iff (a : Vec) : l2norm a = 0 ↔ normSq a = 0 := by
  rw [l2norm, Real.sqrt_eq_zero (normSq_nonneg a)]

lemma candLe_trans (a b c : Candidate) (h1 : candLe a b) (h2 : candLe b c) : candLe a c := by
  simp [candLe] at h1 h2 ⊢
  exact le_trans h2 h1

lemma candLe_total (a b : Candidate) : candLe a b || candLe b a := by
  simp [candLe]
  exact le_total b.score a.score

lemma ingest_empty_text (E : Embedder) (st : St) (t ti : Option String) (now : Nat)
    (h : pyStrip (t.getD "") = "") :
    ingest E st t ti now = (.ok (.failure 400 "No text provided."), st) := by
  simp [ingest, h]

lemma ingest_embed_error (E : Embedder) (st : St) (t ti : Option String) (now : Nat)
    (e : String) (h : pyStrip (t.getD "") ≠ "")
    (hE : E (chunk_text (pyStrip (t.getD ""))) = .error e) :
    ingest E st t ti now = (.error e, st) := by
  simp [ingest, h, hE]

lemma ingest_success (E : Embedder) (st : St) (t ti : Option String) (now : Nat)
    (embs : List Vec) (h : pyStrip (t.getD "") ≠ "")
    (hE : E (chunk_text (pyStrip (t.getD ""))) = .ok embs) :
    ingest E st t ti now =
      (.ok (.success st.doc_counter (chunk_text (pyStrip (t.getD ""))).length),
        ⟨st.stored_docs ++
            [⟨st.doc_counter, ti.getD ("doc_" ++ toString now), pyStrip (t.getD ""),
              chunk_text (pyStrip (t.getD "")), embs⟩],
          st.doc_counter + 1⟩) := by
  simp [ingest, h, hE]

lemma chat_preserves_state (E : Embedder) (C : ChatOracle) (fmt : ℝ → String)
    (st : St) (q s : Option String) : (chat E C fmt st q s).2 = st := by
  unfold chat
  dsimp only
  split
  · rfl
  · split
    · rfl
    · split <;> rfl

lemma chat_empty_question (E : Embedder) (C : ChatOracle) (fmt : ℝ → String)
    (st : St) (q s : Option String) (h : pyStrip (q.getD "") = "") :
    chat E C fmt st q s = (.ok (.failure 400 "No question provided."), st) := by
  simp [chat, h]

lemma chat_retrieve_error (E : Embedder) (C : ChatOracle) (fmt : ℝ → String)
    (st : St) (q s : Option String) (e : String) (h : pyStrip (q.getD "") ≠ "")
    (hr : retrieve_top_k E (pyStrip (q.getD "")) st.stored_docs 5 = .error e) :
    chat E C fmt st q s = (.error e, st) := by
  simp [chat, h, hr]

lemma chat_oracle_error (E : Embedder) (C : ChatOracle) (fmt : ℝ → String)
    (st : St) (q s : Option String) (retrieved : List Candidate) (e : String)
    (h : pyStrip (q.getD "") ≠ "")
    (hr : retrieve_top_k E (pyStrip (q.getD "")) st.stored_docs 5 = .ok retrieved)
    (hC : C SYSTEM_PROMPT
        (userInstructions (s.getD "Concise") (pyStrip (q.getD ""))
          (sourceTextOf fmt retrieved)) = .error e) :
    chat E C fmt st q s = (.ok (.failure 500 ("OpenAI API error: " ++ e)), st) := by
  simp [chat, h, hr, hC]

lemma chat_oracle_ok (E : Embedder) (C : ChatOracle) (fmt : ℝ → String)
    (st : St) (q s : Option String) (retrieved : List Candidate) (content : String)
    (h : pyStrip (q.getD "") ≠ "")
    (hr : retrieve_top_k E (pyStrip (q.getD "")) st.stored_docs 5 = .ok retrieved)
    (hC : C SYSTEM_PROMPT
        (userInstructions (s.getD "Concise") (pyStrip (q.getD ""))
          (sourceTextOf fmt retrieved)) = .ok content) :
    chat E C fmt st q s = (.ok (.success (pyStrip content) retrieved), st) := by
  simp [chat, h, hr, hC]

lemma retrieve_empty_store (E : Embedder) (q : String) (k : Nat) :
    retrieve_top_k E q [] k = .ok [] := rfl

lemma retrieve_embed_error (E : Embedder) (q : String) (docs : List Doc) (k : Nat)
    (e : String) (h : docs ≠ []) (hE : E [q] = .error e) :
    retrieve_top_k E q docs k = .error e := by
  simp [retrieve_top_k, h, hE]

lemma retrieve_embed_ok (E : Embedder) (q : String) (docs : List Doc) (k : Nat)
    (q_emb : Vec) (rest : List Vec) (h : docs ≠ []) (hE : E [q] = .ok (q_emb :: rest)) :
    retrieve_top_k E q docs k =
      .ok (((allCandidates q_emb docs).mergeSort candLe).take k) := by
  simp [retrieve_top_k, h, hE]

lemma storeInv_initSt : storeInv initSt := by
  refine ⟨rfl, ?_⟩
  intro i h
  simp [initSt] at h

lemma storeInv_ingest (E : Embedder) (st : St) (t ti : Option String) (now : Nat)
    (h : storeInv st) : storeInv (ingest E st t ti now).2 := by
  by_cases h0 : pyStrip (t.getD "") = ""
  · rw [ingest_empty_text E st t ti now h0]; exact h
  · cases hE : E (chunk_text (pyStrip (t.getD ""))) with
    | error e => rw [ingest_embed_error E st t ti now e h0 hE]; exact h
    | ok embs =>
      rw [ingest_success E st t ti now embs h0 hE]
      refine ⟨by simp [h.1], ?_⟩
      intro i hi
      simp only [List.length_append, List.length_singleton] at hi
      rw [List.get_eq_getElem]
      by_cases hlt : i < st.stored_docs.length
      · rw [List.getElem_append_left hlt]
        exact h.2 i hlt
      · have hieq : i = st.stored_docs.length := by omega
        rw [List.getElem_concat_length _ _ _ hieq]
        exact (h.1.trans hieq.symm).symm ▸ rfl

lemma storeInv_step (st : St) (r : Req) (h : storeInv st) : storeInv (step st r) := by
  cases r with
  | ingestReq E t ti n => exact storeInv_ingest E st t ti n h
  | chatReq E C f q s =>
    show storeInv (chat E C f st q s).2
    rw [chat_preserves_state]
    exact h

lemma storeInv_run (reqs : List Req) : ∀ st : St, storeInv st → storeInv (run st reqs) := by
  induction reqs with
  | nil => intro st h; exact h
  | cons r rs ih =>
    intro st h
    exact ih (step st r) (storeInv_step st r h)

/-- Constant embedder used as a concrete input for witnesses. -/
def constEmbedder : Embedder := fun ts => .ok (ts.map fun _ => [1])

/-- Always-failing embedder used as a concrete input. -/
def failEmbedder : Embedder := fun _ => .error "boom"

/-- Concrete score formatter standing in for Python `:.3f` formatting. -/
def fmtZero : ℝ → String := fun _ => "0.000"

/-- Chat oracle that always answers. -/
def okOracle : ChatOracle := fun _ _ => .ok "fine"

/-- Chat oracle that always raises. -/
def downOracle : ChatOracle := fun _ _ => .error "down"

/-- A concrete single-chunk document for witnesses. -/
def oneDoc : Doc := ⟨0, "t", "hello", ["hello"], [[1]]⟩

/-- A 161-word text: one word more than the chunker's advance step
`max_words - overlap = 160`, yet under `max_words = 200` words. -/
def longText : String := " ".intercalate (List.replicate 161 "w")

/-- C1: when the store is non-empty (and the query embedding succeeds),
`retrieve_top_k` yields the per-chunk candidate list of the whole store
(one candidate per stored chunk, scored by cosine against the query
embedding), stable-sorted by descending score and truncated to the first
`k`: the result has length at most `k`, equals the first `k` entries of a
permutation `full` of `allCandidates`, ties keep their encounter order
(descending-or-equal pairs of `allCandidates` stay in order in `full`),
and scores are non-increasing along the result, so a higher score always
appears before a lower one. -/
theorem retrieve_top_k_ranking (E : Embedder) (query : String) (docs : List Doc) (k : Nat)
    (q_emb : Vec) (rest : List Vec)
    (hne : docs ≠ []) (hE : E [query] = .ok (q_emb :: rest)) :
    ∃ res full,
      retrieve_top_k E query docs k = .ok res ∧
      res = full.take k ∧
      res.length ≤ k ∧
      full.Perm (allCandidates q_emb docs) ∧
      ((∀ d ∈ docs, d.chunks.length = d.embs.length) →
        full.length = (docs.map fun d => d.chunks.length).sum) ∧
      (∀ x y : Candidate, List.Sublist [x, y] (allCandidates q_emb docs) →
        y.score ≤ x.score → List.Sublist [x, y] full) ∧
      (∀ i j (hi : i < res.length) (hj : j < res.length), i < j →
        (res.get ⟨j, hj⟩).score ≤ (res.get ⟨i, hi⟩).score) := by
  have hperm := List.mergeSort_perm (allCandidates q_emb docs) candLe
  have hsorted : (List.mergeSort (allCandidates q_emb docs) candLe).Pairwise
      (fun a b : Candidate => b.score ≤ a.score) := by
    have h := List.sorted_mergeSort candLe_trans candLe_total (allCandidates q_emb docs)
    exact h.imp (fun hab => by simpa [candLe] using hab)
  refine ⟨_, List.mergeSort (allCandidates q_emb docs) candLe,
    retrieve_embed_ok E query docs k q_emb rest hne hE, rfl,
    List.length_take_le k _, hperm, ?_, ?_, ?_⟩
  · intro hlen
    rw [hperm.length_eq]
    simp only [allCandidates, List.flatMap, List.length_flatten, List.map_map]
    congr 1
    apply List.map_congr_left
    intro d hd
    simp [hlen d hd]
  · intro x y hsub hscore
    refine List.sublist_mergeSort candLe_trans candLe_total ?_ hsub
    constructor
    · intro z hz
      rw [List.mem_singleton] at hz
      subst hz
      simpa [candLe] using hscore
    · simp
  · intro i j hi hj hij
    have hres : (List.take k (List.mergeSort (allCandidates q_emb docs) candLe)).Pairwise
        (fun a b : Candidate => b.score ≤ a.score) :=
      hsorted.sublist (List.take_sublist k _)
    exact List.pairwise_iff_get.mp hres ⟨i, hi⟩ ⟨j, hj⟩ hij

/-- C1 witness: on a concrete one-document store with a succeeding
embedder, retrieval succeeds and returns at most `k` candidates. -/
theorem retrieve_top_k_ranking_witness :
    [oneDoc] ≠ ([] : List Doc) ∧ constEmbedder ["q"] = .ok [[1]] ∧
    ∃ res, retrieve_top_k constEmbedder "q" [oneDoc] 5 = .ok res ∧ res.length ≤ 5 := by
  refine ⟨by simp, rfl, ?_⟩
  obtain ⟨res, full, h1, _, h3, _⟩ :=
    retrieve_top_k_ranking constEmbedder "q" [oneDoc] 5 [1] [] (by simp) rfl
  exact ⟨res, h1, h3⟩

/-- C2: an ingest request whose text is missing or empty after stripping
is rejected with status 400 and body `{ok: false, error: "No text
provided."}`, leaving the globals untouched; and every ingest call either
fully succeeds (appending exactly one document and bumping the counter) or
leaves the state exactly as it was. -/
theorem ingest_validation_and_atomicity (E : Embedder) (st : St) (t ti : Option String)
    (now : Nat) :
    (pyStrip (t.getD "") = "" →
      ingest E st t ti now = (.ok (.failure 400 "No text provided."), st)) ∧
    (∀ res st', ingest E st t ti now = (res, st') →
      (∃ d : Doc, st'.stored_docs = st.stored_docs ++ [d] ∧
        st'.doc_counter = st.doc_counter + 1 ∧
        res = .ok (.success st.doc_counter d.chunks.length)) ∨
      (st' = st ∧ ∀ d n, res ≠ .ok (.success d n))) := by
  refine ⟨ingest_empty_text E st t ti now, ?_⟩
  intro res st' h
  by_cases h0 : pyStrip (t.getD "") = ""
  · rw [ingest_empty_text E st t ti now h0] at h
    cases h
    exact Or.inr ⟨rfl, by simp⟩
  · cases hE : E (chunk_text (pyStrip (t.getD ""))) with
    | error e =>
      rw [ingest_embed_error E st t ti now e h0 hE] at h
      cases h
      exact Or.inr ⟨rfl, by simp⟩
    | ok embs =>
      rw [ingest_success E st t ti now embs h0 hE] at h
      cases h
      exact Or.inl ⟨_, rfl, rfl, rfl⟩

/-- C2 witness: ingesting with no text field fails with the validation
error and does not change the initial state. -/
theorem ingest_validation_and_atomicity_witness :
    ingest constEmbedder initSt none none 0 =
      (.ok (.failure 400 "No text provided."), initSt) :=
  (ingest_validation_and_atomicity constEmbedder initSt none none 0).1 rfl

/-- C3 counterexample: an embedding-provider failure during ingest is not
caught by the handler — it escapes as an unhandled exception instead of
being converted into an `{ok: false, error: ...}` response. -/
theorem ingest_embed_error_uncaught :
    (ingest failEmbedder initSt (some "hello") none 0).1 = .error "boom" := rfl

/-- C3 amended: only the chat-completion call is guarded — its failures
become 500 responses carrying `"OpenAI API error: <e>"` — while
embedding-call failures propagate unhandled out of both the ingest handler
and the chat handler (via `retrieve_top_k`). -/
theorem provider_error_conversion (E : Embedder) (C : ChatOracle) (fmt : ℝ → String)
    (st : St) (q s t ti : Option String) (now : Nat) :
    (∀ retrieved e, pyStrip (q.getD "") ≠ "" →
      retrieve_top_k E (pyStrip (q.getD "")) st.stored_docs 5 = .ok retrieved →
      C SYSTEM_PROMPT (userInstructions (s.getD "Concise") (pyStrip (q.getD ""))
        (sourceTextOf fmt retrieved)) = .error e →
      chat E C fmt st q s = (.ok (.failure 500 ("OpenAI API error: " ++ e)), st)) ∧
    (∀ e, pyStrip (q.getD "") ≠ "" →
      retrieve_top_k E (pyStrip (q.getD "")) st.stored_docs 5 = .error e →
      chat E C fmt st q s = (.error e, st)) ∧
    (∀ e, pyStrip (t.getD "") ≠ "" →
      E (chunk_text (pyStrip (t.getD ""))) = .error e →
      ingest E st t ti now = (.error e, st)) ∧
    (∀ (e : String) (q' : String) (docs : List Doc) (k : Nat), docs ≠ [] →
      E [q'] = .error e → retrieve_top_k E q' docs k = .error e) :=
  ⟨fun retrieved e hq hr hC => chat_oracle_error E C fmt st q s retrieved e hq hr hC,
    fun e hq hr => chat_retrieve_error E C fmt st q s e hq hr,
    fun e ht hE => ingest_embed_error E st t ti now e ht hE,
    fun e q' docs k hd hE => retrieve_embed_error E q' docs k e hd hE⟩

/-- C3 amended witness: a failing chat oracle yields the converted 500
response; a failing embedder makes ingest propagate the raw error. -/
theorem provider_error_conversion_witness :
    chat constEmbedder downOracle fmtZero initSt (some "hi") none =
      (.ok (.failure 500 "OpenAI API error: down"), initSt) ∧
    ingest failEmbedder initSt (some "hey") none 0 = (.error "boom", initSt) := by
  constructor
  · exact (provider_error_conversion constEmbedder downOracle fmtZero initSt
      (some "hi") none none none 0).1 [] "down" (by decide) rfl rfl
  · exact (provider_error_conversion failEmbedder downOracle fmtZero initSt
      none none (some "hey") none 0).2.2.1 "boom" (by decide) rfl

/-- C7: the similarity scorer's degenerate-input policy and postcondition:
absent arguments give the sentinel -1, a zero-norm argument gives -1,
otherwise the normalized dot product is returned with a provably non-zero
divisor, and on any non-zero vector the self-similarity is exactly 1. -/
theorem cosine_sim_policy (a b : Vec) (v : Option Vec) :
    cosine_sim none v = -1 ∧
    cosine_sim (some a) none = -1 ∧
    (l2norm a = 0 ∨ l2norm b = 0 → cosine_sim (some a) (some b) = -1) ∧
    (l2norm a ≠ 0 → l2norm b ≠ 0 →
      cosine_sim (some a) (some b) = dot a b / (l2norm a * l2norm b) ∧
        l2norm a * l2norm b ≠ 0) ∧
    ((∃ x ∈ a, x ≠ 0) → cosine_sim (some a) (some a) = 1) := by
  refine ⟨rfl, rfl, ?_, ?_, ?_⟩
  · intro h
    simp only [cosine_sim]
    rw [if_pos h]
  · intro h1 h2
    simp only [cosine_sim]
    rw [if_neg (by push_neg; exact ⟨h1, h2⟩)]
    exact ⟨rfl, mul_ne_zero h1 h2⟩
  · intro hx
    have hpos : 0 < normSq a := normSq_pos_of_ne_zero a hx
    have hn : l2norm a ≠ 0 := by
      rw [ne_eq, l2norm_eq_zero_iff]
      exact ne_of_gt hpos
    simp only [cosine_sim]
    rw [if_neg (by push_neg; exact ⟨hn, hn⟩)]
    rw [dot_self_eq_normSq, l2norm, Real.mul_self_sqrt (normSq_nonneg a)]
    exact div_self (ne_of_gt hpos)

/-- C7 witness: concrete checks — a zero vector scores -1 against
anything, and a non-zero vector has self-similarity exactly 1. -/
theorem cosine_sim_policy_witness :
    cosine_sim (some [0]) (some [1]) = -1 ∧ cosine_sim (some [1]) (some [1]) = 1 := by
  constructor
  · exact (cosine_sim_policy [0] [1] none).2.2.1
      (Or.inl (by simp [l2norm, normSq]))
  · exact (cosine_sim_policy [1] [1] none).2.2.2.2 ⟨1, by simp, one_ne_zero⟩

lemma windowsOf_single (maxW s' : Nat) (ws : List String)
    (h1 : ws ≠ []) (h2 : ws.length ≤ s' + 1) :
    windowsOf maxW s' ws = [ws.take maxW] := by
  match ws with
  | [] => exact absurd rfl h1
  | w :: t =>
    rw [windowsOf_cons]
    have ht : t.drop s' = [] := by
      rw [List.drop_eq_nil_iff]
      simp at h2
      omega
    rw [ht, windowsOf_nil]

lemma chunk_text_one_chunk (text : String) (maxW overlap : Nat) (h : overlap < maxW)
    (h1 : pyWords text ≠ []) (h2 : (pyWords text).length ≤ maxW - overlap) :
    chunk_text text maxW overlap = [" ".intercalate (pyWords text)] := by
  rw [chunk_text_eq_windows text maxW overlap h,
    windowsOf_single maxW (maxW - overlap - 1) (pyWords text) h1 (by omega),
    List.map_singleton, List.take_of_length_le (by omega)]

set_option maxRecDepth 100000 in
/-- C4 counterexample: a 161-word text is non-empty and has at most
`max_words = 200` words, yet `chunk_text` (with the default parameters)
produces two chunks, not one — the loop re-enters at start index
`max_words - overlap = 160 < 161`. -/
theorem chunk_text_two_chunks_under_max_words :
    longText ≠ "" ∧ (pyWords longText).length ≤ 200 ∧
      (chunk_text longText).length = 2 := by
  refine ⟨by decide, by decide, by decide⟩

/-- C4 amended: for every text containing at least one and at most
`max_words - overlap = 160` words, `chunk_text` (default parameters)
produces exactly one chunk, the space-joined word sequence of the text;
ingesting such a text (with a succeeding embedder) reports
`num_chunks = 1`. -/
theorem chunk_text_single_chunk (text : String) (E : Embedder) (st : St)
    (ti : Option String) (now : Nat) :
    (pyWords text ≠ [] → (pyWords text).length ≤ 160 →
      chunk_text text = [" ".intercalate (pyWords text)]) ∧
    (∀ t : Option String, pyWords (pyStrip (t.getD "")) ≠ [] →
      (pyWords (pyStrip (t.getD ""))).length ≤ 160 →
      ∀ embs, E (chunk_text (pyStrip (t.getD ""))) = .ok embs →
        (ingest E st t ti now).1 = .ok (.success st.doc_counter 1)) := by
  constructor
  · intro h1 h2
    exact chunk_text_one_chunk text 200 40 (by omega) h1 (by omega)
  · intro t h1 h2 embs hE
    have htext : pyStrip (t.getD "") ≠ "" := by
      intro hempty
      rw [hempty] at h1
      exact h1 rfl
    rw [ingest_success E st t ti now embs htext hE]
    dsimp only
    rw [chunk_text_one_chunk (pyStrip (t.getD "")) 200 40 (by omega) h1 (by omega)]
    rfl

/-- C4 amended witness: a one-word text chunks to itself, and ingesting it
reports one chunk with the first document id. -/
theorem chunk_text_single_chunk_witness :
    chunk_text "a" = ["a"] ∧
    (ingest constEmbedder initSt (some "a") none 0).1 = .ok (.success 0 1) := by
  constructor
  · exact ((chunk_text_single_chunk "a" constEmbedder initSt none 0).1
      (by decide) (by decide)).trans (by decide)
  · exact (chunk_text_single_chunk "a" constEmbedder initSt none 0).2
      (some "a") (by decide) (by decide) [[1]] rfl

/-- C5: under `overlap < max_words`, `chunk_text` equals the space-joined
word windows; the `m`-th chunk exists exactly when the start index
`m * (max_words - overlap)` is strictly below the word count and then
joins `words[start : start + max_words]`; taking the advance step from
each window and concatenating reconstructs the original word sequence;
and a text with no words yields zero chunks. -/
theorem chunk_text_window_decomposition (text : String) (maxW overlap : Nat)
    (h : overlap < maxW) :
    chunk_text text maxW overlap =
      (windowsOf maxW (maxW - overlap - 1) (pyWords text)).map
        (fun ws => " ".intercalate ws) ∧
    (∀ m : Nat, (chunk_text text maxW overlap)[m]? =
      if m * (maxW - overlap) < (pyWords text).length then
        some (" ".intercalate (((pyWords text).drop (m * (maxW - overlap))).take maxW))
      else none) ∧
    ((windowsOf maxW (maxW - overlap - 1) (pyWords text)).map
        (fun w => w.take (maxW - overlap))).flatten = pyWords text ∧
    (pyWords text = [] → chunk_text text maxW overlap = []) := by
  have hs : maxW - overlap - 1 + 1 = maxW - overlap := by omega
  refine ⟨chunk_text_eq_windows text maxW overlap h, ?_, ?_, ?_⟩
  · intro m
    rw [chunk_text_eq_windows text maxW overlap h, List.getElem?_map,
      windowsOf_getElem, hs]
    by_cases hc : m * (maxW - overlap) < (pyWords text).length
    · rw [if_pos hc, if_pos hc]
      rfl
    · rw [if_neg hc, if_neg hc]
      rfl
  · have h2 := windowsOf_flatten maxW (maxW - overlap - 1) (by omega) (pyWords text)
    simp only [hs] at h2
    exact h2
  · intro h0
    rw [chunk_text, h0]
    rfl

/-- C5 witness: on a concrete text and parameters, the first chunk is the
first window. -/
theorem chunk_text_window_decomposition_witness :
    (chunk_text "a b c" 2 1)[0]? = some "a b" := by
  have h := (chunk_text_window_decomposition "a b c" 2 1 (by decide)).2.1 0
  rw [h]
  decide

lemma loopIdx_closed (a b : ℤ) (n : Nat) : loopIdx a b n = n * (a - b) := by
  induction n with
  | zero => simp [loopIdx]
  | succ n ih =>
    rw [loopIdx, ih]
    push_cast
    ring

/-- C6: with `overlap < max_words` the chunking loop terminates — the loop
index passes any word count in finitely many steps, and adding fuel beyond
one unit per word never changes `chunk_text`'s value (the loop has already
exited); the source has no guard for `overlap >= max_words`, where the
advance step is non-positive and the loop index stays below the word count
of any non-empty text forever. -/
theorem chunk_loop_termination (maxW overlap : Nat) :
    (overlap < maxW → ∀ L : Nat, ∃ n : Nat,
      (L : ℤ) ≤ loopIdx (maxW : ℤ) (overlap : ℤ) n) ∧
    (overlap < maxW → ∀ (text : String) (fuel : Nat), (pyWords text).length ≤ fuel →
      chunkFromFuel (pyWords text) maxW overlap fuel 0 = chunk_text text maxW overlap) ∧
    (maxW ≤ overlap → ∀ L : Nat, 0 < L → ∀ n : Nat,
      loopIdx (maxW : ℤ) (overlap : ℤ) n < (L : ℤ)) := by
  refine ⟨?_, ?_, ?_⟩
  · intro h L
    refine ⟨L, ?_⟩
    rw [loopIdx_closed]
    have h1 : (1 : ℤ) ≤ (maxW : ℤ) - (overlap : ℤ) := by omega
    calc (L : ℤ) = (L : ℤ) * 1 := by ring
    _ ≤ (L : ℤ) * ((maxW : ℤ) - (overlap : ℤ)) :=
      mul_le_mul_of_nonneg_left h1 (Int.natCast_nonneg L)
  · intro h text fuel hfuel
    rw [chunkFromFuel_eq_windows _ _ _ h fuel 0 (by omega),
      chunk_text_eq_windows text maxW overlap h, List.drop_zero]
  · intro h L hL n
    rw [loopIdx_closed]
    have h1 : (maxW : ℤ) - (overlap : ℤ) ≤ 0 := by omega
    have h2 : (n : ℤ) * ((maxW : ℤ) - (overlap : ℤ)) ≤ 0 :=
      mul_nonpos_iff.mpr (Or.inl ⟨Int.natCast_nonneg n, h1⟩)
    calc (n : ℤ) * ((maxW : ℤ) - (overlap : ℤ)) ≤ 0 := h2
    _ < (L : ℤ) := by exact_mod_cast hL

/-- C6 witness: with the default parameters the loop index passes 5; the
fuelled loop is fuel-insensitive on a concrete text; with the parameters
swapped the loop index never reaches 1. -/
theorem chunk_loop_termination_witness :
    (∃ n : Nat, (5 : ℤ) ≤ loopIdx ((200 : Nat) : ℤ) ((40 : Nat) : ℤ) n) ∧
    chunkFromFuel (pyWords "x y") 2 1 5 0 = chunk_text "x y" 2 1 ∧
    (∀ n : Nat, loopIdx ((40 : Nat) : ℤ) ((200 : Nat) : ℤ) n < ((1 : Nat) : ℤ)) := by
  refine ⟨?_, ?_, ?_⟩
  · exact (chunk_loop_termination 200 40).1 (by decide) 5
  · exact (chunk_loop_termination 2 1).2.1 (by decide) "x y" 5 (by decide)
  · exact fun n => (chunk_loop_termination 40 200).2.2 (by decide) 1 (by decide) n


/-- C8: asking while the store is empty: retrieval returns the empty
sequence for every embedder (no remote embedding call can influence the
result), the composed source section is exactly "No documents ingested.",
and the chat handler passes that sentence to the chat oracle inside the
user instruction and returns an empty retrieved field on success (or the
converted 500 on oracle failure). -/
theorem chat_empty_store_behavior (E : Embedder) (C : ChatOracle) (fmt : ℝ → String)
    (st : St) (q s : Option String) :
    (∀ (E₂ : Embedder) (q₂ : String) (k : Nat), retrieve_top_k E₂ q₂ [] k = .ok []) ∧
    sourceTextOf fmt [] = "No documents ingested." ∧
    (st.stored_docs = [] → pyStrip (q.getD "") ≠ "" →
      (∀ content, C SYSTEM_PROMPT (userInstructions (s.getD "Concise")
          (pyStrip (q.getD "")) "No documents ingested.") = .ok content →
        chat E C fmt st q s = (.ok (.success (pyStrip content) []), st)) ∧
      (∀ e, C SYSTEM_PROMPT (userInstructions (s.getD "Concise")
          (pyStrip (q.getD "")) "No documents ingested.") = .error e →
        chat E C fmt st q s = (.ok (.failure 500 ("OpenAI API error: " ++ e)), st))) := by
  refine ⟨fun E₂ q₂ k => rfl, rfl, ?_⟩
  intro hst hq
  have hr : retrieve_top_k E (pyStrip (q.getD "")) st.stored_docs 5 = .ok [] := by
    rw [hst]
    rfl
  constructor
  · intro content hC
    exact chat_oracle_ok E C fmt st q s [] content hq hr hC
  · intro e hC
    exact chat_oracle_error E C fmt st q s [] e hq hr hC

/-- C8 witness: asking on the fresh store with an answering oracle
returns the answer together with an empty retrieved sequence. -/
theorem chat_empty_store_behavior_witness :
    chat constEmbedder okOracle fmtZero initSt (some "hi") none =
      (.ok (.success "fine" []), initSt) :=
  ((chat_empty_store_behavior constEmbedder okOracle fmtZero initSt
    (some "hi") none).2.2 rfl (by decide)).1 "fine" rfl

/-- C9: document ids are assigned monotonically from 0 in call order: the
store invariant (counter equals the document count, position `i` holds id
`i`) holds initially, is preserved by every request, and so holds after
any request sequence; and a successful ingest returns exactly the current
document count as `doc_id` while growing the store by one. -/
theorem doc_id_assignment :
    storeInv initSt ∧
    (∀ (st : St) (r : Req), storeInv st → storeInv (step st r)) ∧
    (∀ reqs : List Req, storeInv (run initSt reqs)) ∧
    (∀ (E : Embedder) (st : St) (t ti : Option String) (now d m : Nat),
      storeInv st → (ingest E st t ti now).1 = .ok (.success d m) →
        d = st.stored_docs.length ∧
        (ingest E st t ti now).2.stored_docs.length = st.stored_docs.length + 1 ∧
        storeInv (ingest E st t ti now).2) := by
  refine ⟨storeInv_initSt, fun st r h => storeInv_step st r h,
    fun reqs => storeInv_run reqs initSt storeInv_initSt, ?_⟩
  intro E st t ti now d m hinv hok
  by_cases h0 : pyStrip (t.getD "") = ""
  · rw [ingest_empty_text E st t ti now h0] at hok
    simp at hok
  · cases hE : E (chunk_text (pyStrip (t.getD ""))) with
    | error e =>
      rw [ingest_embed_error E st t ti now e h0 hE] at hok
      simp at hok
    | ok embs =>
      have hsucc := ingest_success E st t ti now embs h0 hE
      rw [hsucc] at hok
      simp only [Except.ok.injEq, IngestResult.success.injEq] at hok
      refine ⟨?_, ?_, storeInv_ingest E st t ti now hinv⟩
      · rw [← hok.1, hinv.1]
      · rw [hsucc]
        simp

/-- C9 witness: on the fresh store, a concrete successful ingest returns
doc_id 0, grows the store to one document, and preserves the invariant. -/
theorem doc_id_assignment_witness :
    (0 : Nat) = initSt.stored_docs.length ∧
    (ingest constEmbedder initSt (some "hi") none 0).2.stored_docs.length =
      initSt.stored_docs.length + 1 ∧
    storeInv (ingest constEmbedder initSt (some "hi") none 0).2 :=
  doc_id_assignment.2.2.2 constEmbedder initSt (some "hi") none 0 0 1
    ⟨rfl, fun i h => absurd h (by simp [initSt])⟩ rfl

/-- C10: the chat handler is read-only on the shared globals: whatever the
question, oracles, or outcome, the state after the handler equals the
state before, and the corresponding request step is the identity; only
ingest changes the state, and then only by appending one document and
bumping the counter. -/
theorem chat_read_only :
    (∀ (E : Embedder) (C : ChatOracle) (fmt : ℝ → String) (st : St) (q s : Option String),
      (chat E C fmt st q s).2 = st) ∧
    (∀ (st : St) (E : Embedder) (C : ChatOracle) (fmt : ℝ → String) (q s : Option String),
      step st (.chatReq E C fmt q s) = st) ∧
    (∀ (E : Embedder) (st : St) (t ti : Option String) (now : Nat) (res) (st' : St),
      ingest E st t ti now = (res, st') →
        st' = st ∨ ∃ d : Doc, st'.stored_docs = st.stored_docs ++ [d] ∧
          st'.doc_counter = st.doc_counter + 1) := by
  refine ⟨chat_preserves_state, ?_, ?_⟩
  · intro st E C fmt q s
    exact chat_preserves_state E C fmt st q s
  · intro E st t ti now res st' h
    by_cases h0 : pyStrip (t.getD "") = ""
    · rw [ingest_empty_text E st t ti now h0] at h
      cases h
      exact Or.inl rfl
    · cases hE : E (chunk_text (pyStrip (t.getD ""))) with
      | error e =>
        rw [ingest_embed_error E st t ti now e h0 hE] at h
        cases h
        exact Or.inl rfl
      | ok embs =>
        rw [ingest_success E st t ti now embs h0 hE] at h
        cases h
        exact Or.inr ⟨_, rfl, rfl⟩

/-- C10 witness: a concrete chat call leaves a one-document store intact,
and a concrete ingest extends the store rather than mutating it in place. -/
theorem chat_read_only_witness :
    (chat constEmbedder okOracle fmtZero ⟨[oneDoc], 1⟩ (some "q") none).2 = ⟨[oneDoc], 1⟩ ∧
    ((ingest constEmbedder initSt (some "x") none 0).2 = initSt ∨
      ∃ d : Doc, (ingest constEmbedder initSt (some "x") none 0).2.stored_docs =
          initSt.stored_docs ++ [d] ∧
        (ingest constEmbedder initSt (some "x") none 0).2.doc_counter =
          initSt.doc_counter + 1) :=
  ⟨chat_read_only.1 constEmbedder okOracle fmtZero ⟨[oneDoc], 1⟩ (some "q") none,
    chat_read_only.2.2 constEmbedder initSt (some "x") none 0 _ _ rfl⟩


end TeachBot

